import Mathlib

/-!
Verification of the chat-session logic of the `01-basic-prompt-structures`
notebook: the `InMemoryHistory` class, the global `store` dictionary with
`get_by_session_id`, and the Conversation Runner built with
`RunnableWithMessageHistory`.

The Python objects are embedded as pure Lean values with explicit state
passing: the mutable global `store` dict becomes an association list that is
threaded through every operation, and in-place mutation of a history object
becomes replacement of the binding at its key.
-/

namespace VnDs

/-- Message roles used by the notebook: `human` inputs and model outputs. -/
inductive Role where
  | user : Role
  | assistant : Role
deriving DecidableEq, Repr

/-- A chat message: a role together with its text content. -/
structure Message where
  role : Role
  content : String
deriving DecidableEq, Repr

/-- `class InMemoryHistory(BaseChatMessageHistory, BaseModel)`: a wrapper
around a list of messages, defaulting to the empty list. -/
structure InMemoryHistory where
  messages : List Message
deriving DecidableEq, Repr

/-- `def add_messages(self, messages): self.messages.extend(messages)` —
in-place extension becomes returning the updated history value. -/
def InMemoryHistory.add_messages (h : InMemoryHistory) (ms : List Message) :
    InMemoryHistory :=
  { h with messages := h.messages ++ ms }

/-- `def clear(self): self.messages = []`. -/
def InMemoryHistory.clear (h : InMemoryHistory) : InMemoryHistory :=
  { h with messages := [] }

/-- The global `store = {}` dictionary, embedded as an association list from
session identifiers to histories. Keys are unique (dict semantics): lookup
finds the unique binding, update replaces it in place or appends a new one. -/
def Store : Type := List (String × InMemoryHistory)

/-- Dictionary lookup: `store[session_id]` / `session_id in store`. -/
def Store.find : Store → String → Option InMemoryHistory
  | [], _ => none
  | (k, v) :: rest, s => if k = s then some v else Store.find rest s

/-- Dictionary assignment `store[session_id] = h`: replaces the existing
binding for the key, or appends a fresh binding at the end. -/
def Store.update : Store → String → InMemoryHistory → Store
  | [], s, h => [(s, h)]
  | (k, v) :: rest, s, h =>
      if k = s then (s, h) :: rest else (k, v) :: Store.update rest s h

/-- The message list a session resolves to: the stored history's messages,
or `[]` when the identifier has never been seen. -/
def Store.messagesOf (st : Store) (s : String) : List Message :=
  match st.find s with
  | some h => h.messages
  | none => []

/-- `def get_by_session_id(session_id)`: if the identifier is not in the
store, insert a fresh empty `InMemoryHistory`; return the stored history.
State passing makes the (possibly grown) store part of the result. -/
def get_by_session_id (st : Store) (s : String) : Store × InMemoryHistory :=
  match st.find s with
  | some h => (st, h)
  | none => (st.update s ⟨[]⟩, ⟨[]⟩)

/-- Modelled from the spec: the Conversation Runner `respond` is realized in
the notebook by LangChain's `RunnableWithMessageHistory` wrapping
`prompt | llm`, library code not present in this repository. Following the
spec's contract: fetch the session's history, build the request as the full
prior history followed by a new user message, invoke the Model Client
synchronously, and only on success append the user and assistant messages
(in that order) to the session's history; on failure the error propagates
and the history is untouched. The Model Client is an explicit function
argument returning `Except ε String`. -/
def respond {ε : Type} (model : List Message → Except ε String)
    (st : Store) (s t : String) : Store × Except ε String :=
  let p := get_by_session_id st s
  let request := p.2.messages ++ [Message.mk Role.user t]
  match model request with
  | Except.error e => (p.1, Except.error e)
  | Except.ok a =>
      let h2 := p.2.add_messages [Message.mk Role.user t, Message.mk Role.assistant a]
      (Store.update p.1 s h2, Except.ok a)

/-- The request `respond` hands to the Model Client for session `s` and user
text `t` against store `st`. -/
def buildRequest (st : Store) (s t : String) : List Message :=
  (get_by_session_id st s).2.messages ++ [Message.mk Role.user t]

/-! ### Concrete Model Clients used for closed witnesses -/

/-- A deterministic two-turn Model Client: answers `A1` to the first request
and `A2` to the follow-up request, failing on anything else. -/
def demoModel : List Message → Except Unit String :=
  fun req =>
    if req = [Message.mk Role.user "Q1"] then Except.ok "A1"
    else if req = [Message.mk Role.user "Q1", Message.mk Role.assistant "A1",
        Message.mk Role.user "Q2"] then Except.ok "A2"
    else Except.error ()

/-- A Model Client that answers only the very first request `[user "Q1"]`. -/
def demoModelAlt : List Message → Except Unit String :=
  fun req =>
    if req = [Message.mk Role.user "Q1"] then Except.ok "A1"
    else Except.error ()

/-- A Model Client that always fails. -/
def failModel : List Message → Except Unit String :=
  fun _ => Except.error ()

/-! ### Store lemmas -/

theorem Store.find_update_self (st : Store) (s : String) (h : InMemoryHistory) :
    (st.update s h).find s = some h := by
  induction st with
  | nil => simp [Store.update, Store.find]
  | cons kv rest ih =>
      obtain ⟨k, v⟩ := kv
      by_cases hk : k = s
      · simp [Store.update, Store.find, hk]
      · simp [Store.update, Store.find, hk, ih]

theorem Store.find_update_ne (st : Store) {s sx : String} (h : InMemoryHistory)
    (hne : sx ≠ s) : (st.update s h).find sx = st.find sx := by
  have hne2 : s ≠ sx := fun e => hne e.symm
  induction st with
  | nil => simp [Store.update, Store.find, hne2]
  | cons kv rest ih =>
      obtain ⟨k, v⟩ := kv
      by_cases hk : k = s
      · subst hk
        simp [Store.update, Store.find, hne2]
      · simp only [Store.update, if_neg hk, Store.find]
        by_cases hks : k = sx
        · simp [hks]
        · simp [hks, ih]

theorem get_by_session_id_found (st : Store) (s : String) (h : InMemoryHistory)
    (hf : st.find s = some h) : get_by_session_id st s = (st, h) := by
  simp [get_by_session_id, hf]

theorem get_by_session_id_fresh (st : Store) (s : String)
    (hf : st.find s = none) :
    get_by_session_id st s = (st.update s ⟨[]⟩, ⟨[]⟩) := by
  simp [get_by_session_id, hf]

theorem get_by_session_id_messages (st : Store) (s : String) :
    (get_by_session_id st s).2.messages = st.messagesOf s := by
  unfold get_by_session_id Store.messagesOf
  cases st.find s <;> simp

theorem get_by_session_id_find_result (st : Store) (s : String) :
    (get_by_session_id st s).1.find s = some (get_by_session_id st s).2 := by
  unfold get_by_session_id
  cases hf : st.find s with
  | some h => simpa using hf
  | none => simp [Store.find_update_self]

/-- A second lookup of the same identifier changes nothing: same store, same
history. -/
theorem get_by_session_id_idem (st : Store) (s : String) :
    get_by_session_id (get_by_session_id st s).1 s = get_by_session_id st s := by
  have hf := get_by_session_id_find_result st s
  rw [get_by_session_id_found _ _ _ hf]

/-- Looking up one session never disturbs the binding of another session. -/
theorem get_by_session_id_find_other (st : Store) {s sx : String}
    (hne : sx ≠ s) : (get_by_session_id st s).1.find sx = st.find sx := by
  unfold get_by_session_id
  cases hf : st.find s with
  | some h => rfl
  | none => exact Store.find_update_ne st _ hne

theorem buildRequest_eq (st : Store) (s t : String) :
    buildRequest st s t = st.messagesOf s ++ [Message.mk Role.user t] := by
  unfold buildRequest
  rw [get_by_session_id_messages]

/-! ### Conversation Runner lemmas -/

theorem respond_ok_spec {ε : Type} (model : List Message → Except ε String)
    (st : Store) (s t a : String)
    (h : model (st.messagesOf s ++ [Message.mk Role.user t]) = Except.ok a) :
    (respond model st s t).1.messagesOf s
      = st.messagesOf s ++ [Message.mk Role.user t, Message.mk Role.assistant a]
    ∧ (respond model st s t).2 = Except.ok a := by
  simp only [respond]
  rw [get_by_session_id_messages st s, h]
  refine ⟨?_, rfl⟩
  simp only [Store.messagesOf, Store.find_update_self, InMemoryHistory.add_messages,
    get_by_session_id_messages]

theorem respond_error_spec {ε : Type} (model : List Message → Except ε String)
    (st : Store) (s t : String) (e : ε)
    (h : model (st.messagesOf s ++ [Message.mk Role.user t]) = Except.error e) :
    respond model st s t = ((get_by_session_id st s).1, Except.error e) := by
  simp only [respond]
  rw [get_by_session_id_messages st s, h]

theorem get_by_session_id_messagesOf_store (st : Store) (s : String) :
    (get_by_session_id st s).1.messagesOf s = st.messagesOf s := by
  have h1 : (get_by_session_id st s).1.messagesOf s
      = (get_by_session_id st s).2.messages := by
    unfold Store.messagesOf
    rw [get_by_session_id_find_result st s]
  rw [h1, get_by_session_id_messages]

/-! ### Claims -/

/-- C1: for every session identifier `s`, a first call to `get_by_session_id`
on a store not containing `s` creates an empty history, inserts it into the
store, and returns it; a subsequent call returns the same stored history and
leaves the store unchanged (identity stability: the Python object identity is
rendered as the store binding at `s`, which later calls neither replace nor
alter). -/
theorem c1_getOrCreate_identity_stability (st : Store) (s : String)
    (hf : st.find s = none) :
    get_by_session_id st s = (st.update s ⟨[]⟩, ⟨[]⟩)
    ∧ (get_by_session_id st s).1.find s = some ⟨[]⟩
    ∧ get_by_session_id (get_by_session_id st s).1 s = get_by_session_id st s := by
  refine ⟨get_by_session_id_fresh st s hf, ?_, get_by_session_id_idem st s⟩
  rw [get_by_session_id_fresh st s hf]
  exact Store.find_update_self st s ⟨[]⟩

/-- Closed instance of C1 at the empty store and identifier `"foo"`. -/
theorem c1_getOrCreate_identity_stability_witness :
    Store.find [] "foo" = none
    ∧ (get_by_session_id [] "foo" = (Store.update [] "foo" ⟨[]⟩, ⟨[]⟩)
      ∧ (get_by_session_id [] "foo").1.find "foo" = some ⟨[]⟩
      ∧ get_by_session_id (get_by_session_id [] "foo").1 "foo"
          = get_by_session_id [] "foo") :=
  ⟨rfl, c1_getOrCreate_identity_stability [] "foo" rfl⟩

/-- C2: starting from a session with empty history, two successful turns
`respond(s, Q1)` then `respond(s, Q2)` leave exactly four messages for `s`,
in order user(Q1), assistant(A1), user(Q2), assistant(A2); each turn appends
the user message before the corresponding assistant message. -/
theorem c2_two_turns_history {ε : Type} (model : List Message → Except ε String)
    (st : Store) (s Q1 Q2 A1 A2 : String)
    (hs : st.messagesOf s = [])
    (h1 : model [Message.mk Role.user Q1] = Except.ok A1)
    (h2 : model [Message.mk Role.user Q1, Message.mk Role.assistant A1,
        Message.mk Role.user Q2] = Except.ok A2) :
    (respond model st s Q1).2 = Except.ok A1
    ∧ (respond model (respond model st s Q1).1 s Q2).2 = Except.ok A2
    ∧ (respond model (respond model st s Q1).1 s Q2).1.messagesOf s
        = [Message.mk Role.user Q1, Message.mk Role.assistant A1,
           Message.mk Role.user Q2, Message.mk Role.assistant A2] := by
  have hreq1 : model (st.messagesOf s ++ [Message.mk Role.user Q1])
      = Except.ok A1 := by rw [hs]; simpa using h1
  obtain ⟨hm1, hr1⟩ := respond_ok_spec model st s Q1 A1 hreq1
  have hmsg1 : (respond model st s Q1).1.messagesOf s
      = [Message.mk Role.user Q1, Message.mk Role.assistant A1] := by
    rw [hm1, hs]; simp
  have hreq2 : model ((respond model st s Q1).1.messagesOf s
      ++ [Message.mk Role.user Q2]) = Except.ok A2 := by
    rw [hmsg1]; simpa using h2
  obtain ⟨hm2, hr2⟩ := respond_ok_spec model (respond model st s Q1).1 s Q2 A2 hreq2
  refine ⟨hr1, hr2, ?_⟩
  rw [hm2, hmsg1]; simp

/-- Closed instance of C2 with the deterministic `demoModel`. -/
theorem c2_two_turns_history_witness :
    Store.messagesOf [] "s" = []
    ∧ demoModel [Message.mk Role.user "Q1"] = Except.ok "A1"
    ∧ demoModel [Message.mk Role.user "Q1", Message.mk Role.assistant "A1",
        Message.mk Role.user "Q2"] = Except.ok "A2"
    ∧ ((respond demoModel [] "s" "Q1").2 = Except.ok "A1"
      ∧ (respond demoModel (respond demoModel [] "s" "Q1").1 "s" "Q2").2
          = Except.ok "A2"
      ∧ (respond demoModel (respond demoModel [] "s" "Q1").1 "s" "Q2").1.messagesOf "s"
          = [Message.mk Role.user "Q1", Message.mk Role.assistant "A1",
             Message.mk Role.user "Q2", Message.mk Role.assistant "A2"]) :=
  ⟨rfl, rfl, rfl,
    c2_two_turns_history demoModel [] "s" "Q1" "Q2" "A1" "A2" rfl rfl rfl⟩

/-- C3: the request `respond(s, t)` hands to the Model Client is exactly the
full prior history of session `s`, in order, followed by one new user message
containing `t`; moreover `respond` consults the Model Client only at that
request: two clients agreeing there produce identical `respond` results. -/
theorem c3_request_is_history_plus_user {ε : Type} (st : Store) (s t : String)
    (m₁ m₂ : List Message → Except ε String)
    (hagree : m₁ (buildRequest st s t) = m₂ (buildRequest st s t)) :
    buildRequest st s t = st.messagesOf s ++ [Message.mk Role.user t]
    ∧ respond m₁ st s t = respond m₂ st s t := by
  refine ⟨buildRequest_eq st s t, ?_⟩
  have hb : m₁ ((get_by_session_id st s).2.messages ++ [Message.mk Role.user t])
      = m₂ ((get_by_session_id st s).2.messages ++ [Message.mk Role.user t]) := hagree
  simp only [respond]
  rw [hb]

/-- Closed instance of C3: `demoModel` and `demoModelAlt` agree on the request
built for a fresh session, so `respond` cannot tell them apart there. -/
theorem c3_request_is_history_plus_user_witness :
    demoModel (buildRequest [] "s" "Q1") = demoModelAlt (buildRequest [] "s" "Q1")
    ∧ (buildRequest [] "s" "Q1"
        = Store.messagesOf [] "s" ++ [Message.mk Role.user "Q1"]
      ∧ respond demoModel [] "s" "Q1" = respond demoModelAlt [] "s" "Q1") :=
  ⟨rfl, c3_request_is_history_plus_user [] "s" "Q1" demoModel demoModelAlt rfl⟩

/-- C4: if the Model Client fails inside `respond(s, t)`, the message history
of session `s` after the call equals the history before the call: neither the
user message nor an assistant message is appended on failure. -/
theorem c4_history_unchanged_on_failure {ε : Type}
    (model : List Message → Except ε String) (st : Store) (s t : String) (e : ε)
    (h : model (buildRequest st s t) = Except.error e) :
    (respond model st s t).1.messagesOf s = st.messagesOf s := by
  rw [buildRequest_eq] at h
  rw [respond_error_spec model st s t e h]
  exact get_by_session_id_messagesOf_store st s

/-- Closed instance of C4: a failing client leaves a one-turn history as it
was. -/
theorem c4_history_unchanged_on_failure_witness :
    failModel (buildRequest
        [("s", ⟨[Message.mk Role.user "q", Message.mk Role.assistant "a"]⟩)]
        "s" "Q") = Except.error ()
    ∧ (respond failModel
        [("s", ⟨[Message.mk Role.user "q", Message.mk Role.assistant "a"]⟩)]
        "s" "Q").1.messagesOf "s"
      = Store.messagesOf
        [("s", ⟨[Message.mk Role.user "q", Message.mk Role.assistant "a"]⟩)] "s" :=
  ⟨rfl, c4_history_unchanged_on_failure failModel
    [("s", ⟨[Message.mk Role.user "q", Message.mk Role.assistant "a"]⟩)]
    "s" "Q" () rfl⟩

/-- C5: `respond` returns exactly what the Model Client returns on the built
request: an error propagates unmodified (no retry, no reclassification, no
substitute result), and a success yields the client's assistant text. -/
theorem c5_error_propagated_as_is {ε : Type}
    (model : List Message → Except ε String) (st : Store) (s t : String) :
    (respond model st s t).2 = model (buildRequest st s t) := by
  simp only [respond, buildRequest]
  cases model ((get_by_session_id st s).2.messages ++ [Message.mk Role.user t]) <;> rfl

/-- C6: histories of distinct identifiers are independent: appending messages
to the history of `s1` (fetching it, extending it with `add_messages`, and
writing the extended object back at its key, as the in-place Python mutation
does) leaves the history of `s2` unchanged. Object distinctness is rendered
as this mutation independence: the two identifiers resolve to different store
bindings, so no write through `s1` reaches `s2`. -/
theorem c6_session_histories_independent (st : Store) (s1 s2 : String)
    (ms : List Message) (hne : s1 ≠ s2) :
    ((get_by_session_id st s1).1.update s1
        ((get_by_session_id st s1).2.add_messages ms)).messagesOf s2
      = st.messagesOf s2 := by
  have h2 : s2 ≠ s1 := fun e => hne e.symm
  unfold Store.messagesOf
  rw [Store.find_update_ne _ _ h2, get_by_session_id_find_other st h2]

/-- Closed instance of C6: appending to `"foo"` leaves `"bar"`'s single
message untouched. -/
theorem c6_session_histories_independent_witness :
    "foo" ≠ "bar"
    ∧ ((get_by_session_id [("bar", ⟨[Message.mk Role.user "b"]⟩)] "foo").1.update
          "foo" ((get_by_session_id [("bar", ⟨[Message.mk Role.user "b"]⟩)]
            "foo").2.add_messages [Message.mk Role.user "hello"])).messagesOf "bar"
      = Store.messagesOf [("bar", ⟨[Message.mk Role.user "b"]⟩)] "bar" :=
  ⟨by decide, c6_session_histories_independent
    [("bar", ⟨[Message.mk Role.user "b"]⟩)] "foo" "bar"
    [Message.mk Role.user "hello"] (by decide)⟩

/-- C7: no context leakage between sessions, as a two-run statement: for
distinct identifiers `s1 ≠ s2`, replacing `s2`'s history by anything at all
does not change the request `respond` builds for `s1`; the request depends
only on `s1`'s own history and the new user text. -/
theorem c7_no_context_leakage (st : Store) (s1 s2 t : String)
    (h : InMemoryHistory) (hne : s1 ≠ s2) :
    buildRequest (st.update s2 h) s1 t = buildRequest st s1 t := by
  rw [buildRequest_eq, buildRequest_eq]
  unfold Store.messagesOf
  rw [Store.find_update_ne st h hne]

/-- Closed instance of C7: rewriting `"bar"`'s history does not change the
request built for `"foo"`. -/
theorem c7_no_context_leakage_witness :
    "foo" ≠ "bar"
    ∧ buildRequest
        (Store.update [("foo", ⟨[Message.mk Role.user "p"]⟩)] "bar"
          ⟨[Message.mk Role.user "secret"]⟩) "foo" "What is its population?"
      = buildRequest [("foo", ⟨[Message.mk Role.user "p"]⟩)] "foo"
          "What is its population?" :=
  ⟨by decide, c7_no_context_leakage [("foo", ⟨[Message.mk Role.user "p"]⟩)]
    "foo" "bar" "What is its population?" ⟨[Message.mk Role.user "secret"]⟩
    (by decide)⟩

/-- C8: `get_by_session_id` is total on all strings, the empty string
included: it has no error branch — for every store and identifier it returns
a Session History which the resulting store holds at that identifier. -/
theorem c8_getOrCreate_total (st : Store) (s : String) :
    (get_by_session_id st s).1.find s = some (get_by_session_id st s).2 :=
  get_by_session_id_find_result st s

/-- C9: `add_messages` is a monoid action on histories: two consecutive calls
equal one call on the concatenation, the empty call is the identity, and a
call appends its argument after the existing messages (so it never removes or
reorders them). -/
theorem c9_add_messages_monoid_action (h : InMemoryHistory)
    (a b : List Message) :
    (h.add_messages a).add_messages b = h.add_messages (a ++ b)
    ∧ h.add_messages [] = h
    ∧ (h.add_messages a).messages = h.messages ++ a := by
  refine ⟨?_, ?_, rfl⟩
  · simp [InMemoryHistory.add_messages]
  · simp [InMemoryHistory.add_messages]

/-- C10: `clear` empties a session's message list while leaving the store
mapping untouched: the identifier still resolves to the same (now empty)
history object, so `get_by_session_id` returns it without inserting anything,
and every other identifier's binding is unchanged. -/
theorem c10_clear_empties_history_frame (st : Store) (s sx : String)
    (h : InMemoryHistory) ( _hf : st.find s = some h) (hne : sx ≠ s) :
    (st.update s h.clear).messagesOf s = []
    ∧ get_by_session_id (st.update s h.clear) s = (st.update s h.clear, h.clear)
    ∧ (st.update s h.clear).find sx = st.find sx := by
  refine ⟨?_, ?_, Store.find_update_ne st h.clear hne⟩
  · unfold Store.messagesOf
    rw [Store.find_update_self]
    rfl
  · exact get_by_session_id_found _ s h.clear (Store.find_update_self st s h.clear)

/-- Closed instance of C10 on a two-session store. -/
theorem c10_clear_empties_history_frame_witness :
    Store.find [("a", ⟨[Message.mk Role.user "q"]⟩),
        ("b", ⟨[Message.mk Role.assistant "r"]⟩)] "a"
      = some ⟨[Message.mk Role.user "q"]⟩
    ∧ "b" ≠ "a"
    ∧ ((Store.update [("a", ⟨[Message.mk Role.user "q"]⟩),
          ("b", ⟨[Message.mk Role.assistant "r"]⟩)] "a"
          (InMemoryHistory.clear ⟨[Message.mk Role.user "q"]⟩)).messagesOf "a" = []
      ∧ get_by_session_id (Store.update [("a", ⟨[Message.mk Role.user "q"]⟩),
          ("b", ⟨[Message.mk Role.assistant "r"]⟩)] "a"
          (InMemoryHistory.clear ⟨[Message.mk Role.user "q"]⟩)) "a"
        = (Store.update [("a", ⟨[Message.mk Role.user "q"]⟩),
            ("b", ⟨[Message.mk Role.assistant "r"]⟩)] "a"
            (InMemoryHistory.clear ⟨[Message.mk Role.user "q"]⟩),
           InMemoryHistory.clear ⟨[Message.mk Role.user "q"]⟩)
      ∧ (Store.update [("a", ⟨[Message.mk Role.user "q"]⟩),
          ("b", ⟨[Message.mk Role.assistant "r"]⟩)] "a"
          (InMemoryHistory.clear ⟨[Message.mk Role.user "q"]⟩)).find "b"
        = Store.find [("a", ⟨[Message.mk Role.user "q"]⟩),
            ("b", ⟨[Message.mk Role.assistant "r"]⟩)] "b") :=
  ⟨by decide, by decide,
    c10_clear_empties_history_frame
      [("a", ⟨[Message.mk Role.user "q"]⟩),
       ("b", ⟨[Message.mk Role.assistant "r"]⟩)]
      "a" "b" ⟨[Message.mk Role.user "q"]⟩ (by decide) (by decide)⟩

end VnDs
